import Mathlib

/-!
# Verification of the gitness reference-walk / check-report core

Shallow embedding of:
* `git/sha/sha.go` — the SHA identity value type,
* `internal/api/controller/check/check_report.go` — report input validation
  and the `Report` workflow,
* the gitea adapter reference functions (`WalkReferences`,
  `walkGiteaReferenceParser`, `UpdateRef`, `getRef`).

Go errors are modelled as `String` values (or a small inductive where the
error class matters); fallible functions return `Except`/`Option`.
Pointer-receiver mutation is modelled by returning the caller-visible value
after the call.  External collaborators (the git binary, the authorization
service, the persistent store, standard-library codecs, and enum helpers
whose sources are not in the corpus) are modelled from the spec; each such
definition carries a doc comment saying so.
-/

namespace Sha

/-- The `SHA` from `sha.go`: a git sha wrapping a single string field `str`. -/
structure SHA where
  str : String
deriving DecidableEq, Repr

/-- ASCII whitespace recognized by Go's `strings.TrimSpace` (space 32,
tab 9, newline 10, vertical tab 11, form feed 12, carriage return 13).
The SHA strings in play are ASCII, so unicode space classes are not
modelled. -/
def isGoSpace (c : Char) : Bool :=
  c.toNat = 32 || c.toNat = 9 || c.toNat = 10 || c.toNat = 11 || c.toNat = 12 || c.toNat = 13

/-- Go's `strings.TrimSpace`: drop leading and trailing whitespace. -/
def trimSpace (s : String) : String :=
  String.mk (((s.toList.dropWhile isGoSpace).reverse.dropWhile isGoSpace).reverse)

/-- Go's `strings.ToLower` on one ASCII character (`A`–`Z` is 65–90). -/
def charToLower (c : Char) : Char :=
  if 65 ≤ c.toNat && c.toNat ≤ 90 then Char.ofNat (c.toNat + 32) else c

/-- Go's `strings.ToLower` (ASCII part, which is all the SHA rules accept). -/
def toLowerStr (s : String) : String :=
  String.mk (s.toList.map charToLower)

/-- Character class `[0-9a-f]` used by `validSHARegex` (`0`–`9` is 48–57,
`a`–`f` is 97–102). -/
def isHexLowerDigit (c : Char) : Bool :=
  ((48 ≤ c.toNat && c.toNat ≤ 57) || (97 ≤ c.toNat && c.toNat ≤ 102))

/-- The `validSHARegex = ^[0-9a-f]{4,64}$` from `sha.go`, as an executable matcher. -/
def matchesValidSHA (s : String) : Bool :=
  decide (4 ≤ s.length) && decide (s.length ≤ 64) && s.toList.all isHexLowerDigit

/-- The `nilRegex = ^0{4,64}$` from `sha.go`, as an executable matcher. -/
def matchesNilSHA (s : String) : Bool :=
  decide (4 ≤ s.length) && decide (s.length ≤ 64) && s.toList.all (· = '0')

/-- The `New` from `sha.go`: trims whitespace, lowercases, validates against
`validSHARegex`; returns the invalid-format error otherwise. -/
def New (value : String) : Except String SHA :=
  let value := trimSpace value
  let value := toLowerStr value
  if matchesValidSHA value then
    .ok ⟨value⟩
  else
    .error s!"invalid argument: the provided commit sha '{value}' is of invalid format"

/-- The string constant `Nil` is built from in `sha.go` (`Must("0…0")`, 40 zeros). -/
def nilStr : String := "0000000000000000000000000000000000000000"

/-- The `Nil` from `sha.go`: the all-zero SHA produced by `Must(nilStr)`. -/
def Nil : SHA := ⟨nilStr⟩

/-- The `None` from `sha.go`: the zero value `SHA{}`, i.e. the empty string. -/
def NoneSHA : SHA := ⟨""⟩

/-- The `SHA.IsNil` from `sha.go`. -/
def SHA.IsNil (s : SHA) : Bool := matchesNilSHA s.str

/-- The `SHA.IsEmpty` from `sha.go`. -/
def SHA.IsEmpty (s : SHA) : Bool := s.str = ""

/-- The `SHA.Equal` from `sha.go`. -/
def SHA.Equal (s val : SHA) : Bool := s.str = val.str

/-- The `SHA.String` from `sha.go`. -/
def SHA.StringOf (s : SHA) : String := s.str

/-- Modelled from the spec: the standard-library binary string codec (gob)
used by `SHA.GobEncode` is not part of the sources; per the spec the binary
encoding "must wrap that exact string without reinterpretation", so the
encoded byte sequence is modelled by the wrapped string itself (framing
errors of the codec are not modelled).  `SHA.GobEncode` from `sha.go`
encodes the raw `str` field. -/
def SHA.GobEncode (s : SHA) : Except String String := .ok s.str

/-- The `SHA.GobDecode` from `sha.go`: decodes the wrapped string and assigns it
directly to the receiver's `str` field — note that, unlike JSON decoding, it
performs no re-validation of the decoded string. -/
def SHA.GobDecode (data : String) : Except String SHA := .ok ⟨data⟩

/-- The `SHA.MarshalJSON` from `sha.go`: marshals the raw `str` field (the JSON
string payload is modelled by the wrapped string itself, as for gob). -/
def SHA.MarshalJSON (s : SHA) : Except String String := .ok s.str

/-- The `SHA.UnmarshalJSON` from `sha.go`: decodes the string payload and then
re-validates it through `New`, propagating the validation error. -/
def SHA.UnmarshalJSON (data : String) : Except String SHA :=
  match New data with
  | .ok sha => .ok ⟨sha.str⟩
  | .error e => .error e

end Sha

namespace Check

/-- The `regexpCheckUID` from `check_report.go`. -/
def regexpCheckUID : String := "^[a-zA-Z_][0-9a-zA-Z-_.$]{0,127}$"

/-- Head character class `[a-zA-Z_]` of `regexpCheckUID`. -/
def isUIDHeadChar (c : Char) : Bool :=
  (97 ≤ c.toNat && c.toNat ≤ 122) || (65 ≤ c.toNat && c.toNat ≤ 90) || c.toNat = 95

/-- Tail character class `[0-9a-zA-Z-_.$]` of `regexpCheckUID`. -/
def isUIDTailChar (c : Char) : Bool :=
  (48 ≤ c.toNat && c.toNat ≤ 57) || (97 ≤ c.toNat && c.toNat ≤ 122) ||
    (65 ≤ c.toNat && c.toNat ≤ 90) || c.toNat = 45 || c.toNat = 95 || c.toNat = 46 ||
    c.toNat = 36

/-- The `matcherCheckUID` from `check_report.go` (`^[a-zA-Z_][0-9a-zA-Z-_.$]{0,127}$`),
as an executable matcher. -/
def matchesCheckUID (s : String) : Bool :=
  match s.toList with
  | [] => false
  | c :: cs => isUIDHeadChar c && decide (cs.length ≤ 127) && cs.all isUIDTailChar

/-- Modelled from the spec: `enum.CheckStatus` and its `Sanitize` method are
not part of the sources; per the spec the status "must sanitize to one of the
enumerated allowed status values", "normalizing case/aliases".  Statuses are
modelled as strings, the allowed set as the usual gitness check statuses, and
normalization as ASCII lowercasing. -/
def checkStatuses : List String := ["error", "failure", "pending", "running", "success"]

/-- Modelled from the spec: `enum.CheckStatus.Sanitize` — lowercase, then
require membership in the allowed status set. -/
def sanitizeCheckStatus (s : String) : Option String :=
  let l := Sha.toLowerStr s
  if checkStatuses.contains l then some l else none

/-- The `enum.CheckPayloadKindExternal` referenced by `check_report.go`. -/
def checkPayloadKindExternal : String := "external"

/-- Modelled from the spec: the enumerated allowed payload kinds (the sources
only name the "external" kind; the spec's wire shape allows others). -/
def checkPayloadKinds : List String := ["", "markdown", "raw", "external"]

/-- Modelled from the spec: `enum.CheckPayloadKind.Sanitize` — lowercase,
then require membership in the allowed kind set. -/
def sanitizeCheckPayloadKind (s : String) : Option String :=
  let l := Sha.toLowerStr s
  if checkPayloadKinds.contains l then some l else none

/-- The `types.CheckPayload` (kind + version + opaque data, data as a string of
bytes). -/
structure CheckPayload where
  kind : String
  version : String
  data : String
deriving DecidableEq, Repr

/-- The `ReportInput` from `check_report.go`. -/
structure ReportInput where
  checkUID : String
  status : String
  summary : String
  link : String
  payload : CheckPayload
deriving DecidableEq, Repr

/-- Error classes produced by the report workflow: `usererror.BadRequest`
values, and `fmt.Errorf("…: %w", err)` wrappings of collaborator errors. -/
inductive AppError
| badRequest (msg : String)
| wrapped (context : String) (inner : String)
deriving DecidableEq, Repr

/-- Result of `ReportInput.Validate`: the returned error (`none` on success)
together with the caller-visible input value after the call (the Go receiver
is a pointer, so mutations made before an early `return` persist). -/
structure ValidateResult where
  err : Option AppError
  input : ReportInput
deriving DecidableEq, Repr

/-- The `ReportInput.Validate` from `check_report.go`.  Note two faithful
details: the sanitized status is deliberately discarded (`_, ok :=` in the
source), and for the "external" kind the payload is cleared *before* the
mandatory-link check, so that mutation persists on the error path. -/
def ReportInput.Validate (input : ReportInput) : ValidateResult :=
  if input.checkUID = "" then
    ⟨some (.badRequest "Status check UID is missing"), input⟩
  else if !(matchesCheckUID input.checkUID) then
    ⟨some (.badRequest ("Status check UID must match the regular expression: " ++ regexpCheckUID)),
      input⟩
  else
    match sanitizeCheckStatus input.status with
    | none => ⟨some (.badRequest "Invalid value provided for status check status"), input⟩
    | some _ =>
      match sanitizeCheckPayloadKind input.payload.kind with
      | none => ⟨some (.badRequest "Invalid value provided for the payload type"), input⟩
      | some payloadKind =>
        let input1 := { input with payload := { input.payload with kind := payloadKind } }
        if input1.payload.kind = checkPayloadKindExternal then
          let input2 :=
            { input1 with payload := { input1.payload with version := "", data := "\x7b\x7d" } }
          if input2.link = "" then
            ⟨some (.badRequest "Link is missing"), input2⟩
          else
            ⟨none, input2⟩
        else
          ⟨none, input1⟩

/-- Modelled from the spec: `gitrpc.ValidateCommitSHA` is not part of the
sources; per the spec the commit SHA is syntactically validated "format only,
via the Identity rules", i.e. against the SHA pattern. -/
def ValidateCommitSHA (sha : String) : Bool := Sha.matchesValidSHA sha

/-- The steps `Controller.Report` takes, in order, used to observe which
collaborator round-trips happen. -/
inductive ReportStep
| authCheck
| inputValidate
| shaFormatCheck
| getCommit
| upsertCheck
deriving DecidableEq, Repr

/-- The `types.Repository` (the fields `Report` reads). -/
structure Repo where
  id : Int
  uid : String
  gitUID : String
deriving DecidableEq, Repr

/-- The `types.Check` (the record `Report` builds and upserts). -/
structure CheckRecord where
  createdBy : Int
  created : Int
  updated : Int
  repoID : Int
  commitSHA : String
  uid : String
  status : String
  summary : String
  link : String
  payload : CheckPayload
  metadata : String
  reportedBy : Int
deriving DecidableEq, Repr

/-- The external collaborators of `Controller.Report` and the ambient values
it reads, passed as oracles: `getRepoCheckAccess` (authorization),
`gitRPCClient.GetCommit`, `checkStore.Upsert`, `time.Now().UnixMilli()`,
`session.Principal.ID`, and the (error-ignored) `json.Marshal(metadata)`. -/
structure ReportEnv where
  authResult : Except String Repo
  getCommitResult : Except String Unit
  upsertResult : Except String Unit
  now : Int
  principalID : Int
  metadataJson : String

/-- The `Controller.Report` from `check_report.go`: authorization, input
validation, syntactic SHA check, commit resolution, record build, upsert.
Returns the ordered list of steps performed alongside the result. -/
def Controller.Report (env : ReportEnv) (commitSHA : String) (input : ReportInput) :
    List ReportStep × Except AppError CheckRecord :=
  match env.authResult with
  | .error e => ([.authCheck], .error (.wrapped "failed to acquire access access to repo" e))
  | .ok repo =>
    match (input.Validate).err with
    | some e => ([.authCheck, .inputValidate], .error e)
    | none =>
      if !(ValidateCommitSHA commitSHA) then
        ([.authCheck, .inputValidate, .shaFormatCheck],
          .error (.badRequest "invalid commit SHA provided"))
      else
        match env.getCommitResult with
        | .error e =>
          ([.authCheck, .inputValidate, .shaFormatCheck, .getCommit],
            .error (.wrapped ("failed to commit sha=" ++ commitSHA) e))
        | .ok _ =>
          let record : CheckRecord :=
            { createdBy := env.principalID
              created := env.now
              updated := env.now
              repoID := repo.id
              commitSHA := commitSHA
              uid := (input.Validate).input.checkUID
              status := (input.Validate).input.status
              summary := (input.Validate).input.summary
              link := (input.Validate).input.link
              payload := (input.Validate).input.payload
              metadata := env.metadataJson
              reportedBy := env.principalID }
          match env.upsertResult with
          | .error e =>
            ([.authCheck, .inputValidate, .shaFormatCheck, .getCommit, .upsertCheck],
              .error (.wrapped ("failed to upsert status check result for repo=" ++ repo.uid) e))
          | .ok _ =>
            ([.authCheck, .inputValidate, .shaFormatCheck, .getCommit, .upsertCheck], .ok record)

end Check

namespace Gitea

/-- The `enum.RefType` as used by `getRef`; `undefined` stands for every value
other than the five the switch names (the source's `default:` case). -/
inductive RefType
| raw
| branch
| tag
| pullReqHead
| pullReqMerge
| undefined
deriving DecidableEq, Repr

/-- The error classes of the reference mutation code: `types.ErrNotFound`,
`types.ErrInvalidArgument`, and other command failures with their exit
code. -/
inductive GitError
| errNotFound
| errInvalidArgument
| errOther (exitCode : Nat)
deriving DecidableEq, Repr

/-- The `getRef` from the gitea adapter: maps a logical reference name and type
to the physical ref path (`gitea.BranchPrefix` is `refs/heads/`,
`gitea.TagPrefix` is `refs/tags/`). -/
def getRef (refName : String) (refType : RefType) : Except GitError String :=
  match refType with
  | .raw => .ok refName
  | .branch => .ok ("refs/heads/" ++ refName)
  | .tag => .ok ("refs/tags/" ++ refName)
  | .pullReqHead => .ok ("refs/pullreq/" ++ refName ++ "/head")
  | .pullReqMerge => .ok ("refs/pullreq/" ++ refName ++ "/merge")
  | .undefined => .error .errInvalidArgument

/-- The physical reference store of one repository: an association list from
ref path to current value. -/
def RefStore := List (String × String)

/-- Current value of a ref, if present. -/
def RefStore.lookupRef : RefStore → String → Option String
  | [], _ => none
  | (n, v) :: rest, name => if n = name then some v else RefStore.lookupRef rest name

/-- Store with one ref set to a value (updating in place or appending). -/
def RefStore.setRef : RefStore → String → String → RefStore
  | [], name, value => [(name, value)]
  | (n, v) :: rest, name, value =>
    if n = name then (n, value) :: rest
    else (n, v) :: RefStore.setRef rest name value

/-- Outcome of running a git command against a store. -/
inductive GitCmdOutcome
| success (store : RefStore)
| failure (exitCode : Nat)

/-- Modelled from the spec: execution of the backend `update-ref` command
(the git binary is an external collaborator).  `oldArg` is the optional
fourth command argument.  Per the spec the update "with an expected old
value … succeeds only if the reference's current value equals
`expectedOldValue`", the mismatch being "observed via a well-known exit
code" (128); without the extra argument the write is unconditional. -/
def runUpdateRefCmd (store : RefStore) (refName newValue : String) (oldArg : Option String) :
    GitCmdOutcome :=
  match oldArg with
  | none => .success (store.setRef refName newValue)
  | some old =>
    if store.lookupRef refName = some old then .success (store.setRef refName newValue)
    else .failure 128

/-- The `Adapter.UpdateRef` from the gitea adapter: resolves the physical path
via `getRef`, appends the expected old value to the command's arguments only
when it is non-empty (the source's `if oldValue != "" { args = append(args,
oldValue) }`, modelled as the optional fourth argument), runs `update-ref`,
and maps exit code 128 to `ErrNotFound`. -/
def Adapter.UpdateRef (store : RefStore) (refName : String) (refType : RefType)
    (newValue oldValue : String) : Except GitError RefStore :=
  match getRef refName refType with
  | .error e => .error e
  | .ok refName =>
    let oldArg := if oldValue ≠ "" then some oldValue else none
    match runUpdateRefCmd store refName newValue oldArg with
    | .success store => .ok store
    | .failure code => if code = 128 then .error .errNotFound else .error (.errOther code)

/-- The `types.WalkInstruction`. -/
inductive WalkInstruction
| handle
| skip
| stop
deriving DecidableEq, Repr

/-- The `DefaultInstructor` from the gitea adapter: handle everything. -/
def DefaultInstructor {σ : Type} (_ : σ) : Except String WalkInstruction := .ok .handle

/-- The `types.WalkReferencesOptions`.  Reference entries are kept abstract in
the type parameter `σ`; a `none` instructor/patterns models the Go nil. -/
structure WalkReferencesOptions (σ : Type) where
  fields : List String
  instructor : Option (σ → Except String WalkInstruction)
  patterns : Option (List String)
  sort : String
  order : String
  maxWalkDistance : Int

/-- The `math.MaxInt32`. -/
def maxInt32 : Int := 2147483647

/-- The option back-fill block at the top of `Adapter.WalkReferences`,
assignment by assignment in source order.  In the source these assignments go
through the `opts` pointer, so they are visible to the caller. -/
def backfillWalkOptions {σ : Type} (opts : WalkReferencesOptions σ) : WalkReferencesOptions σ :=
  let opts :=
    if opts.instructor.isNone then { opts with instructor := some DefaultInstructor } else opts
  let opts :=
    if opts.fields.isEmpty then { opts with fields := ["refname", "objectname"] } else opts
  let opts :=
    if opts.maxWalkDistance ≤ 0 then { opts with maxWalkDistance := maxInt32 } else opts
  let opts := if opts.patterns.isNone then { opts with patterns := some [] } else opts
  if opts.sort = "" then { opts with sort := "refname" } else opts

/-- The parser over the `for-each-ref` output stream: the raw records it
will yield, and the error, if any, `parser.Err()` reports once the stream is
exhausted (`none` for clean end of stream). -/
structure GiteaParser (ρ : Type) where
  records : List ρ
  terminalErr : Option String

/-- How the per-record loop of `walkGiteaReferenceParser` ended. -/
inductive LoopExit
| streamEnd
| stopped
| distanceDone
| failed (e : String)
deriving DecidableEq, Repr

/-- Observable outcome of the per-record loop: how many times the instructor
and the handler were invoked, and how the loop ended. -/
structure LoopOut where
  icalls : Nat
  hcalls : Nat
  exitKind : LoopExit
deriving DecidableEq, Repr

/-- The `for i := int32(0); i < opts.MaxWalkDistance; i++` loop of
`walkGiteaReferenceParser`: parse the next record (stop at end of stream),
convert it (`mapGiteaRawRef`, whose source is not in the corpus, is a
parameter), ask the instructor, then skip, stop, or invoke the handler.
`fuel` is the number of remaining iterations. -/
def walkLoop {ρ σ : Type} (mapRef : ρ → Except String σ)
    (instructor : σ → Except String WalkInstruction)
    (handler : σ → Except String Unit) : Nat → List ρ → LoopOut
  | 0, _ => ⟨0, 0, .distanceDone⟩
  | _ + 1, [] => ⟨0, 0, .streamEnd⟩
  | fuel + 1, raw :: rest =>
    match mapRef raw with
    | .error e => ⟨0, 0, .failed e⟩
    | .ok ref =>
      match instructor ref with
      | .error e => ⟨1, 0, .failed ("error getting instruction: " ++ e)⟩
      | .ok .skip =>
        let o := walkLoop mapRef instructor handler fuel rest
        ⟨o.icalls + 1, o.hcalls, o.exitKind⟩
      | .ok .stop => ⟨1, 0, .stopped⟩
      | .ok .handle =>
        match handler ref with
        | .error e => ⟨1, 0, .failed ("error handling reference: " ++ e)⟩
        | .ok _ =>
          let o := walkLoop mapRef instructor handler fuel rest
          ⟨o.icalls + 1, o.hcalls + 1, o.exitKind⟩

/-- The `walkGiteaReferenceParser` from the gitea adapter: run the loop, then
surface `parser.Err()`.  The parser can only have recorded an error if a
`parser.Next()` call returned nil because of it, i.e. when the loop ended by
exhausting the stream; loop-level failures are returned directly. -/
def walkGiteaReferenceParser {ρ σ : Type} (mapRef : ρ → Except String σ)
    (stream : GiteaParser ρ) (handler : σ → Except String Unit)
    (opts : WalkReferencesOptions σ) : Except String Unit :=
  let o := walkLoop mapRef (opts.instructor.getD DefaultInstructor) handler
    opts.maxWalkDistance.toNat stream.records
  match o.exitKind with
  | .failed e => .error e
  | .streamEnd =>
    match stream.terminalErr with
    | some e => .error ("failed to parse reference walk output: " ++ e)
    | none => .ok ()
  | _ => .ok ()

/-- The `Adapter.WalkReferences` from the gitea adapter: back-fill the optional
options, then drive the parser loop.  The stream produced by the external
`git for-each-ref` process is a parameter.  In the source `opts` is passed by
pointer and mutated by the back-fill; the first component of the result is
the caller-visible options value after the call. -/
def Adapter.WalkReferences {ρ σ : Type} (mapRef : ρ → Except String σ)
    (stream : GiteaParser ρ) (handler : σ → Except String Unit)
    (opts : WalkReferencesOptions σ) : WalkReferencesOptions σ × Except String Unit :=
  let opts := backfillWalkOptions opts
  (opts, walkGiteaReferenceParser mapRef stream handler opts)

/-- A set of `n` distinct reference records tagged `start … start+n-1`. -/
def refIds (start : Nat) : Nat → List Nat
  | 0 => []
  | n + 1 => start :: refIds (start + 1) n

end Gitea

open Sha Check Gitea

/-! ## Helper lemmas about the SHA string functions -/

/-- Dropping while a predicate holds leaves a list untouched when no element
satisfies the predicate. -/
theorem dropWhile_of_forall_false {p : Char → Bool} :
    ∀ {l : List Char}, (∀ c ∈ l, p c = false) → l.dropWhile p = l := by
  intro l h
  cases l with
  | nil => rfl
  | cons a l =>
    simp only [List.dropWhile]
    rw [h a (List.mem_cons_self a l)]

/-- A lowercase hex digit is not whitespace. -/
theorem hex_not_space {c : Char} (h : isHexLowerDigit c = true) : isGoSpace c = false := by
  revert h
  simp only [isHexLowerDigit, isGoSpace, Bool.or_eq_true, Bool.and_eq_true, decide_eq_true_eq,
    Bool.or_eq_false_iff, decide_eq_false_iff_not]
  omega

/-- A lowercase hex digit is already lowercase. -/
theorem hex_toLower {c : Char} (h : isHexLowerDigit c = true) : charToLower c = c := by
  revert h
  simp only [isHexLowerDigit, charToLower, Bool.or_eq_true, Bool.and_eq_true, decide_eq_true_eq]
  intro h
  rw [if_neg]
  simp only [Bool.and_eq_true, decide_eq_true_eq, not_and]
  omega

/-- Trimming is the identity on all-hex strings. -/
theorem trimSpace_of_all_hex {s : String} (h : s.toList.all isHexLowerDigit = true) :
    trimSpace s = s := by
  have hmem : ∀ c ∈ s.toList, isGoSpace c = false := by
    intro c hc
    exact hex_not_space (by simpa using List.all_eq_true.mp h c hc)
  have hrev : ∀ c ∈ s.toList.reverse, isGoSpace c = false := by
    intro c hc
    exact hmem c (List.mem_reverse.mp hc)
  unfold trimSpace
  rw [dropWhile_of_forall_false hmem, dropWhile_of_forall_false hrev, List.reverse_reverse]
  cases s
  rfl

/-- Mapping a function that fixes every element of a list is the identity. -/
theorem map_fix_of_forall {f : Char → Char} :
    ∀ {l : List Char}, (∀ c ∈ l, f c = c) → l.map f = l := by
  intro l h
  induction l with
  | nil => rfl
  | cons a l ih =>
    simp only [List.map_cons]
    rw [h a (List.mem_cons_self a l), ih fun c hc => h c (List.mem_cons_of_mem a hc)]

/-- Lowercasing is the identity on all-hex strings. -/
theorem toLowerStr_of_all_hex {s : String} (h : s.toList.all isHexLowerDigit = true) :
    toLowerStr s = s := by
  unfold toLowerStr
  rw [map_fix_of_forall fun c hc => hex_toLower (by simpa using List.all_eq_true.mp h c hc)]
  cases s
  rfl

/-- The all-hex component of `matchesValidSHA`. -/
theorem matchesValidSHA_all_hex {s : String} (h : matchesValidSHA s = true) :
    s.toList.all isHexLowerDigit = true := by
  revert h
  simp only [matchesValidSHA, Bool.and_eq_true]
  exact fun h => h.2

/-- Constant check: `Must` on the all-zero constant succeeds, so defining `Nil` directly by
its string value is faithful to `Nil = Must("0…0")`. -/
theorem new_nilStr : New nilStr = .ok Nil := by rfl

/-! ## C9 -/

/-- C9 counterexample: constructing an Identity from the empty string does
not succeed — `New("")` fails the format validation, so the claim that
`construct("")` succeeds with `String() == ""` is false at the concrete
input `""`. -/
theorem new_empty_string_fails : (New "").isOk = false := by decide

/-- C9 (amended): constructing an Identity from the empty string fails with
an invalid-format error; the dedicated empty value is the zero value `None`,
whose string is `""` and whose `IsEmpty()` is true; it is distinct from the
nil value (`Nil.IsEmpty() == false`, and `Nil.IsNil() == true`). -/
theorem empty_sha_semantics :
    (New "").isOk = false ∧
    NoneSHA.StringOf = "" ∧ NoneSHA.IsEmpty = true ∧
    Nil.IsEmpty = false ∧ Nil.IsNil = true := by
  refine ⟨by decide, rfl, by decide, by decide, by decide⟩

/-! ## C5 -/

/-- C5 counterexample: gob-decoding a tampered encoded value whose wrapped
string `"zz"` does not match `^[0-9a-f]{4,64}$` succeeds silently instead of
failing with a deserialization error — `GobDecode` performs no
re-validation. -/
theorem gob_decode_accepts_tampered :
    SHA.GobDecode "zz" = .ok ⟨"zz"⟩ ∧ matchesValidSHA "zz" = false :=
  ⟨rfl, by decide⟩

/-- C5 (amended): encoding then decoding an Identity yields an equal value in
the binary (gob) encoding for every Identity, and in the textual (JSON)
encoding for every Identity whose stored string matches the SHA pattern;
JSON decoding re-validates the stored string, so decoding a value whose
normalized string does not match `^[0-9a-f]{4,64}$` fails — but gob decoding
does not re-validate: it accepts every wrapped string, including
tampered/invalid ones. -/
theorem sha_encoding_roundtrip_validation :
    (∀ s : SHA, s.GobEncode = .ok s.str ∧ SHA.GobDecode s.str = .ok s) ∧
    (∀ s : SHA, matchesValidSHA s.str = true →
      s.MarshalJSON = .ok s.str ∧ SHA.UnmarshalJSON s.str = .ok s) ∧
    (∀ data : String, matchesValidSHA (toLowerStr (trimSpace data)) = false →
      (SHA.UnmarshalJSON data).isOk = false) ∧
    (∀ data : String, (SHA.GobDecode data).isOk = true) := by
  refine ⟨fun s => ⟨rfl, rfl⟩, fun s h => ⟨rfl, ?_⟩, fun data h => ?_, fun data => rfl⟩
  · have hhex := matchesValidSHA_all_hex h
    have htrim := trimSpace_of_all_hex hhex
    have hlow := toLowerStr_of_all_hex hhex
    simp only [SHA.UnmarshalJSON, New, htrim, hlow, h, if_true]
  · unfold SHA.UnmarshalJSON New
    simp only [h, Bool.false_eq_true, if_false, Except.isOk, Except.toBool]

/-- C5 witness: the amended round-trip and validation facts at the concrete
Identity `"cafe"` and the concrete tampered payload `"zz"`. -/
theorem sha_encoding_roundtrip_validation_witness :
    SHA.GobDecode (SHA.str ⟨"cafe"⟩) = .ok ⟨"cafe"⟩ ∧
    SHA.UnmarshalJSON "cafe" = .ok ⟨"cafe"⟩ ∧
    (SHA.UnmarshalJSON "zz").isOk = false :=
  ⟨(sha_encoding_roundtrip_validation.1 ⟨"cafe"⟩).2,
    (sha_encoding_roundtrip_validation.2.1 ⟨"cafe"⟩ (by decide)).2,
    sha_encoding_roundtrip_validation.2.2.1 "zz" (by decide)⟩

/-! ## Helper lemmas about `ReportInput.Validate` -/

/-- No path of `Validate` writes the status field: only the payload is ever
replaced. -/
theorem validate_preserves_status (input : ReportInput) :
    (input.Validate).input.status = input.status := by
  unfold ReportInput.Validate
  by_cases hA : input.checkUID = ""
  · rw [if_pos hA]
  · rw [if_neg hA]
    by_cases hB : (!matchesCheckUID input.checkUID) = true
    · rw [if_pos hB]
    · rw [if_neg hB]
      cases hst : sanitizeCheckStatus input.status with
      | none => rfl
      | some st =>
        cases hk : sanitizeCheckPayloadKind input.payload.kind with
        | none => rfl
        | some k =>
          dsimp only
          by_cases hext : k = checkPayloadKindExternal
          · rw [if_pos hext]
            by_cases hlink : input.link = ""
            · rw [if_pos hlink]
            · rw [if_neg hlink]
          · rw [if_neg hext]

/-! ## C4 -/

/-- C4 counterexample: an input whose status `"SUCCESS"` sanitizes to the
allowed value `"success"` passes `Validate`, but the sanitized value does not
replace the input's status field — the field still holds `"SUCCESS"`, so the
claim that "the sanitized status value replaces the input's status field" is
false at this concrete input. -/
theorem validate_does_not_replace_status :
    (ReportInput.Validate ⟨"abc", "SUCCESS", "", "", ⟨"raw", "", ""⟩⟩).err = Option.none ∧
    (ReportInput.Validate ⟨"abc", "SUCCESS", "", "", ⟨"raw", "", ""⟩⟩).input.status = "SUCCESS" ∧
    sanitizeCheckStatus "SUCCESS" = some "success" ∧ ("SUCCESS" : String) ≠ "success" := by
  refine ⟨by decide, by decide, by decide, by decide⟩

/-- C4 (amended): for every report input (with a well-formed check UID), if
the status does not sanitize then `Validate` fails with the BadRequest status
error; if it does sanitize, `Validate` does not fail with that error — but in
either case the sanitized value is discarded and the input's status field is
left unchanged. -/
theorem validate_status_sanitization (input : ReportInput)
    (h1 : input.checkUID ≠ "") (h2 : matchesCheckUID input.checkUID = true) :
    (input.Validate).input.status = input.status ∧
    (sanitizeCheckStatus input.status = none →
      (input.Validate).err =
        some (.badRequest "Invalid value provided for status check status")) ∧
    (∀ st, sanitizeCheckStatus input.status = some st →
      (input.Validate).err ≠
        some (.badRequest "Invalid value provided for status check status")) := by
  refine ⟨validate_preserves_status input, ?_, ?_⟩
  · intro hnone
    unfold ReportInput.Validate
    rw [if_neg h1, if_neg (by simp [h2]), hnone]
  · intro st hst
    unfold ReportInput.Validate
    rw [if_neg h1, if_neg (by simp [h2]), hst]
    cases hkind : sanitizeCheckPayloadKind input.payload.kind with
    | none => simp
    | some k =>
      dsimp only
      by_cases hext : k = checkPayloadKindExternal
      · rw [if_pos hext]
        by_cases hlink : input.link = ""
        · rw [if_pos hlink]; simp
        · rw [if_neg hlink]; simp
      · rw [if_neg hext]; simp

/-- C4 witness: the amended statement at a concrete input whose status
`"bogus"` does not sanitize: `Validate` fails with the status BadRequest and
leaves the status field untouched. -/
theorem validate_status_sanitization_witness :
    (ReportInput.Validate ⟨"abc", "bogus", "", "", ⟨"raw", "", ""⟩⟩).input.status = "bogus" ∧
    (ReportInput.Validate ⟨"abc", "bogus", "", "", ⟨"raw", "", ""⟩⟩).err =
      some (.badRequest "Invalid value provided for status check status") := by
  have h := validate_status_sanitization ⟨"abc", "bogus", "", "", ⟨"raw", "", ""⟩⟩
    (by decide) (by decide)
  exact ⟨h.1, h.2.1 (by decide)⟩

/-! ## C10 -/

/-- C10: for every report input whose payload kind sanitizes to "external"
and whose link is empty, `Validate` returns the BadRequest "Link is missing"
error but has already mutated the caller's input: the payload kind holds the
sanitized value, the payload version is cleared, and the payload data is the
literal bytes `{}` (written `\x7b\x7d`). -/
theorem validate_external_mutates_before_link_error (input : ReportInput)
    (h1 : input.checkUID ≠ "") (h2 : matchesCheckUID input.checkUID = true)
    (h3 : ∃ st, sanitizeCheckStatus input.status = some st)
    (h4 : sanitizeCheckPayloadKind input.payload.kind = some checkPayloadKindExternal)
    (h5 : input.link = "") :
    (input.Validate).err = some (.badRequest "Link is missing") ∧
    (input.Validate).input.payload.kind = checkPayloadKindExternal ∧
    (input.Validate).input.payload.version = "" ∧
    (input.Validate).input.payload.data = "\x7b\x7d" := by
  obtain ⟨st, hst⟩ := h3
  unfold ReportInput.Validate
  rw [if_neg h1, if_neg (by simp [h2]), hst, h4]
  simp [h5]

/-- C10 witness: at a concrete input with kind `"External"`, version `"v1"`,
data `"x"` and empty link, `Validate` errors with "Link is missing" and the
caller-visible input has kind `"external"`, empty version and `{}` data. -/
theorem validate_external_mutates_before_link_error_witness :
    (ReportInput.Validate ⟨"abc", "success", "", "", ⟨"External", "v1", "x"⟩⟩).err =
      some (.badRequest "Link is missing") ∧
    (ReportInput.Validate ⟨"abc", "success", "", "", ⟨"External", "v1", "x"⟩⟩).input.payload.kind =
      checkPayloadKindExternal ∧
    (ReportInput.Validate
      ⟨"abc", "success", "", "", ⟨"External", "v1", "x"⟩⟩).input.payload.version = "" ∧
    (ReportInput.Validate
      ⟨"abc", "success", "", "", ⟨"External", "v1", "x"⟩⟩).input.payload.data = "\x7b\x7d" :=
  validate_external_mutates_before_link_error ⟨"abc", "success", "", "", ⟨"External", "v1", "x"⟩⟩
    (by decide) (by decide) ⟨"success", by decide⟩ (by decide) (by decide)

/-! ## C7 -/

/-- C7: for every call to `Report` with a syntactically invalid commit SHA
(after authorization and input validation succeed), `Report` fails with a
BadRequest error and performs no backend round-trip: the step trace is
exactly authorization, input validation, SHA format check — no commit
resolution and no store write — showing the format check runs after
authorization and validation and before commit-existence resolution. -/
theorem report_invalid_sha_before_backend (env : ReportEnv) (repo : Repo)
    (commitSHA : String) (input : ReportInput)
    (hauth : env.authResult = .ok repo)
    (hval : (input.Validate).err = Option.none)
    (hsha : ValidateCommitSHA commitSHA = false) :
    Controller.Report env commitSHA input =
      ([.authCheck, .inputValidate, .shaFormatCheck],
        .error (.badRequest "invalid commit SHA provided")) := by
  unfold Controller.Report
  rw [hauth, hval, hsha]
  rfl

/-- C7 witness: the concrete call with commit SHA `"xyz"` (the spec's own
example), a passing authorization oracle and a valid input, returns the
BadRequest and stops after the SHA format check. -/
theorem report_invalid_sha_before_backend_witness :
    Controller.Report ⟨.ok ⟨1, "repo", "giit"⟩, .ok (), .ok (), 17, 7, "\x7b\x7d"⟩ "xyz"
        ⟨"abc", "success", "", "", ⟨"raw", "", ""⟩⟩ =
      ([.authCheck, .inputValidate, .shaFormatCheck],
        .error (.badRequest "invalid commit SHA provided")) :=
  report_invalid_sha_before_backend ⟨.ok ⟨1, "repo", "giit"⟩, .ok (), .ok (), 17, 7, "\x7b\x7d"⟩
    ⟨1, "repo", "giit"⟩ "xyz" ⟨"abc", "success", "", "", ⟨"raw", "", ""⟩⟩
    rfl (by decide) (by decide)

/-! ## C6 -/

/-- C6: for every reference name, `getRef` maps a logical reference to its
physical path by the fixed table: raw is passed through, branch and tag get
the `refs/heads/` and `refs/tags/` prefixes, pull-request head and merge map
to `refs/pullreq/<id>/head` and `refs/pullreq/<id>/merge`, and any other
reference type is rejected as an invalid argument. -/
theorem getRef_fixed_table (name : String) :
    getRef name .raw = .ok name ∧
    getRef name .branch = .ok ("refs/heads/" ++ name) ∧
    getRef name .tag = .ok ("refs/tags/" ++ name) ∧
    getRef name .pullReqHead = .ok ("refs/pullreq/" ++ name ++ "/head") ∧
    getRef name .pullReqMerge = .ok ("refs/pullreq/" ++ name ++ "/merge") ∧
    getRef name .undefined = .error .errInvalidArgument :=
  ⟨rfl, rfl, rfl, rfl, rfl, rfl⟩

/-! ## C1 -/

/-- C1: for every store, reference name, resolvable reference type and new
value: with a non-empty expected old value, `UpdateRef` issues a conditional
(compare-and-swap) write — it succeeds exactly when the ref's current value
equals the expected old value and rewrites the ref to the new value, and a
mismatch is reported as the distinguishable `ErrNotFound` error (mapped from
the backend's exit code 128); with an empty expected old value the update is
unconditional. -/
theorem updateRef_compare_and_swap (store : RefStore) (name : String) (tp : RefType)
    (path newValue oldValue : String) (hpath : getRef name tp = .ok path) :
    (oldValue ≠ "" →
      (store.lookupRef path = some oldValue →
        Adapter.UpdateRef store name tp newValue oldValue = .ok (store.setRef path newValue)) ∧
      (store.lookupRef path ≠ some oldValue →
        Adapter.UpdateRef store name tp newValue oldValue = .error .errNotFound)) ∧
    (oldValue = "" →
      Adapter.UpdateRef store name tp newValue oldValue = .ok (store.setRef path newValue)) := by
  unfold Adapter.UpdateRef
  rw [hpath]
  dsimp only
  constructor
  · intro hne
    rw [if_pos hne]
    dsimp only [runUpdateRefCmd]
    constructor
    · intro hcur
      rw [if_pos hcur]
    · intro hcur
      rw [if_neg hcur]
      rfl
  · intro he
    rw [if_neg (fun hc => hc he)]
    dsimp only [runUpdateRefCmd]

/-- C1 witness: on a concrete store holding `refs/heads/main ↦ cafe`, the
conditional update with the wrong expected value `dead` fails with
`ErrNotFound`, with the matching expected value `cafe` succeeds and rewrites
the ref, and with the empty expected value succeeds unconditionally. -/
theorem updateRef_compare_and_swap_witness :
    Adapter.UpdateRef [("refs/heads/main", "cafe")] "main" .branch "beef" "dead" =
      .error .errNotFound ∧
    Adapter.UpdateRef [("refs/heads/main", "cafe")] "main" .branch "beef" "cafe" =
      .ok [("refs/heads/main", "beef")] ∧
    Adapter.UpdateRef [("refs/heads/main", "cafe")] "main" .branch "beef" "" =
      .ok [("refs/heads/main", "beef")] := by
  have h1 := updateRef_compare_and_swap [("refs/heads/main", "cafe")] "main" .branch
    "refs/heads/main" "beef" "dead" rfl
  have h2 := updateRef_compare_and_swap [("refs/heads/main", "cafe")] "main" .branch
    "refs/heads/main" "beef" "cafe" rfl
  have h3 := updateRef_compare_and_swap [("refs/heads/main", "cafe")] "main" .branch
    "refs/heads/main" "beef" "" rfl
  exact ⟨(h1.1 (by decide)).2 (by decide), (h2.1 (by decide)).1 (by decide), h3.2 rfl⟩

/-! ## Helper lemmas about the walk engine -/

/-- Field-wise characterization of the option back-fill: each unset field is
overwritten with its default, each set field is preserved, and `order` is
never touched. -/
theorem backfill_eq {σ : Type} (opts : WalkReferencesOptions σ) :
    backfillWalkOptions opts =
      ⟨if opts.fields.isEmpty then ["refname", "objectname"] else opts.fields,
       if opts.instructor.isNone then some DefaultInstructor else opts.instructor,
       if opts.patterns.isNone then some [] else opts.patterns,
       if opts.sort = "" then "refname" else opts.sort,
       opts.order,
       if opts.maxWalkDistance ≤ 0 then maxInt32 else opts.maxWalkDistance⟩ := by
  unfold backfillWalkOptions
  by_cases h1 : opts.instructor.isNone <;> by_cases h2 : opts.fields.isEmpty <;>
    by_cases h3 : opts.maxWalkDistance ≤ 0 <;> by_cases h4 : opts.patterns.isNone <;>
    by_cases h5 : opts.sort = "" <;>
    simp [h1, h2, h3, h4, h5]

/-- The instructor is consulted at most once per loop iteration, so never
more often than the fuel (the max walk distance) allows. -/
theorem walkLoop_icalls_le {ρ σ : Type} (mapRef : ρ → Except String σ)
    (instructor : σ → Except String WalkInstruction) (handler : σ → Except String Unit) :
    ∀ (fuel : Nat) (records : List ρ),
      (walkLoop mapRef instructor handler fuel records).icalls ≤ fuel := by
  intro fuel
  induction fuel with
  | zero => intro records; cases records <;> exact Nat.le_refl 0
  | succ n ih =>
    intro records
    cases records with
    | nil => exact Nat.zero_le _
    | cons raw rest =>
      rw [walkLoop]
      cases hm : mapRef raw with
      | error e => exact Nat.zero_le _
      | ok ref =>
        dsimp only
        cases hi : instructor ref with
        | error e => exact Nat.succ_le_succ (Nat.zero_le n)
        | ok instr =>
          cases instr with
          | skip => exact Nat.succ_le_succ (ih rest)
          | stop => exact Nat.succ_le_succ (Nat.zero_le n)
          | handle =>
            dsimp only
            cases hd : handler ref with
            | error e => exact Nat.succ_le_succ (Nat.zero_le n)
            | ok u => exact Nat.succ_le_succ (ih rest)

/-- Running the loop over the records `s, s+1, …` with an instructor that
handles every id below `k` and stops at `k` invokes the instructor `k-s+1`
times and the handler `k-s` times, and ends with a Stop. -/
theorem walkLoop_stop_after (f : Nat → Except String WalkInstruction)
    (h : Nat → Except String Unit) (k : Nat)
    (hf : ∀ i, i < k → f i = .ok .handle) (hfk : f k = .ok .stop)
    (hh : ∀ i, i < k → h i = .ok ()) :
    ∀ (c s fuel : Nat), s ≤ k → k < s + c → k - s < fuel →
      walkLoop (fun n : Nat => Except.ok n) f h fuel (refIds s c) =
        ⟨k - s + 1, k - s, .stopped⟩ := by
  intro c
  induction c with
  | zero => intro s fuel hs hk hfuel; omega
  | succ c ih =>
    intro s fuel hs hk hfuel
    obtain ⟨fuel, rfl⟩ : ∃ m, fuel = m + 1 := ⟨fuel - 1, by omega⟩
    show walkLoop (fun n : Nat => Except.ok n) f h (fuel + 1) (s :: refIds (s + 1) c) = _
    rcases Nat.lt_or_ge s k with hlt | hge
    · rw [walkLoop]
      dsimp only
      rw [hf s hlt]
      dsimp only
      rw [hh s hlt]
      dsimp only
      rw [ih (s + 1) fuel (by omega) (by omega) (by omega)]
      have e1 : k - (s + 1) + 1 = k - s := by omega
      dsimp only
      rw [e1]
    · have hsk : s = k := Nat.le_antisymm hs hge
      subst hsk
      rw [walkLoop]
      dsimp only
      rw [hfk]
      have e0 : s - s = 0 := Nat.sub_self s
      rw [e0]

/-! ## C3 -/

/-- C3 counterexample: back-filling does mutate the caller-owned options.
With an all-unset options value (`maxWalkDistance = 0`), the caller-visible
options after `WalkReferences` returns has `maxWalkDistance = 2147483647`,
not the original `0` — the claim that every unset field is unchanged is
false at this concrete input. -/
theorem walkReferences_mutates_caller_options :
    ¬ ((Adapter.WalkReferences (fun n : Nat => Except.ok n) ⟨[], Option.none⟩
          (fun _ => Except.ok ())
          ⟨[], Option.none, Option.none, "", "", 0⟩).fst.maxWalkDistance = 0) := by
  decide

/-- C3 (amended): back-filling defaults at the start of a walk goes through
the caller's options pointer and therefore *does* mutate the caller-owned
options value: for options with all optional fields unset, after
`WalkReferences` returns the caller's options hold the defaults (fields
`[refname, objectname]`, the default instructor, empty patterns, sort
`refname`, max walk distance `2^31 - 1`) instead of the original unset
values; the untouched `order` field alone is preserved. -/
theorem backfill_mutates_unset_options {ρ σ : Type} (mapRef : ρ → Except String σ)
    (stream : GiteaParser ρ) (handler : σ → Except String Unit)
    (opts : WalkReferencesOptions σ)
    (h1 : opts.instructor = Option.none) (h2 : opts.fields = [])
    (h3 : opts.maxWalkDistance ≤ 0) (h4 : opts.patterns = Option.none) (h5 : opts.sort = "") :
    (Adapter.WalkReferences mapRef stream handler opts).fst =
      ⟨["refname", "objectname"], some DefaultInstructor, some [], "refname", opts.order,
        maxInt32⟩ := by
  show backfillWalkOptions opts = _
  rw [backfill_eq]
  simp [h1, h2, h3, h4, h5]

/-- C3 witness: the amended statement at the concrete all-unset options
value: the caller-visible options after the call hold the defaults. -/
theorem backfill_mutates_unset_options_witness :
    (Adapter.WalkReferences (fun n : Nat => Except.ok n) ⟨[], Option.none⟩
        (fun _ => Except.ok ())
        ⟨[], Option.none, Option.none, "", "", 0⟩).fst =
      ⟨["refname", "objectname"], some DefaultInstructor, some [], "refname", "", maxInt32⟩ :=
  backfill_mutates_unset_options (fun n : Nat => Except.ok n) ⟨[], Option.none⟩
    (fun _ => Except.ok ()) ⟨[], Option.none, Option.none, "", "", 0⟩
    rfl rfl (by decide) rfl rfl

/-! ## C8 -/

/-- C8: for every walk whose options set `maxWalkDistance = m` with
`0 < m < N` (`N` the number of matching references in the stream), the
per-record loop — run exactly as `walkGiteaReferenceParser` runs it, with the
back-filled options' instructor and max walk distance — invokes the
instructor at most `m` times. -/
theorem walk_max_distance_bounds_instructor {ρ σ : Type} (mapRef : ρ → Except String σ)
    (handler : σ → Except String Unit) (stream : GiteaParser ρ)
    (opts : WalkReferencesOptions σ) (m N : Nat)
    (hm : 0 < m) (hopts : opts.maxWalkDistance = (m : Int))
    (hN : stream.records.length = N) (hmN : m < N) :
    (walkLoop mapRef ((backfillWalkOptions opts).instructor.getD DefaultInstructor) handler
        (backfillWalkOptions opts).maxWalkDistance.toNat stream.records).icalls ≤ m := by
  have hkeep : (backfillWalkOptions opts).maxWalkDistance = (m : Int) := by
    rw [backfill_eq]
    dsimp only
    rw [hopts, if_neg (by omega)]
  rw [hkeep]
  have htn : ((m : Int)).toNat = m := by omega
  rw [htn]
  exact walkLoop_icalls_le mapRef _ handler m stream.records

/-- C8 witness: with `m = 1` and `N = 2` references, the instructor is
invoked at most once. -/
theorem walk_max_distance_bounds_instructor_witness :
    (walkLoop (fun n : Nat => Except.ok n)
        ((backfillWalkOptions
            (⟨[], Option.none, Option.none, "", "", 1⟩ : WalkReferencesOptions Nat)).instructor.getD
          DefaultInstructor)
        (fun _ => Except.ok ())
        (backfillWalkOptions
          (⟨[], Option.none, Option.none, "", "", 1⟩ : WalkReferencesOptions Nat)).maxWalkDistance.toNat
        (refIds 0 2)).icalls ≤ 1 :=
  walk_max_distance_bounds_instructor (fun n : Nat => Except.ok n) (fun _ => Except.ok ())
    ⟨refIds 0 2, Option.none⟩ ⟨[], Option.none, Option.none, "", "", 1⟩ 1 2
    (by decide) rfl rfl (by decide)

/-! ## C2 -/

/-- C2: for every walk over a fixed set of `N` references (with the other
options unset, so the max walk distance defaults to `2^31 - 1 ≥ N`) whose
instructor handles the first `k` records (`k < N`) and stops at the next
one, the handler is invoked exactly `k` times — not for the record on which
Stop was returned nor for any later record — and the walk returns without
error, for any terminal state of the stream. -/
theorem walk_stops_after_k (N k : Nat) (f : Nat → Except String WalkInstruction)
    (h : Nat → Except String Unit) (te : Option String)
    (hN : N ≤ 2147483647) (hk : k < N)
    (hf : ∀ i, i < k → f i = .ok .handle) (hfk : f k = .ok .stop)
    (hh : ∀ i, i < k → h i = .ok ()) :
    (walkLoop (fun n : Nat => Except.ok n) f h
        ((backfillWalkOptions
          (⟨[], some f, Option.none, "", "", 0⟩ : WalkReferencesOptions Nat)).maxWalkDistance.toNat)
        (refIds 0 N)).hcalls = k ∧
    (Adapter.WalkReferences (fun n : Nat => Except.ok n) ⟨refIds 0 N, te⟩ h
        ⟨[], some f, Option.none, "", "", 0⟩).snd = .ok () := by
  have hfuel : (backfillWalkOptions
      (⟨[], some f, Option.none, "", "", 0⟩ : WalkReferencesOptions Nat)).maxWalkDistance.toNat =
      2147483647 := rfl
  have hrun := walkLoop_stop_after f h k hf hfk hh N 0 2147483647
    (Nat.zero_le k) (by omega) (by omega)
  constructor
  · rw [hfuel, hrun]
    exact Nat.sub_zero k
  · show walkGiteaReferenceParser (fun n : Nat => Except.ok n) ⟨refIds 0 N, te⟩ h
      (backfillWalkOptions ⟨[], some f, Option.none, "", "", 0⟩) = .ok ()
    unfold walkGiteaReferenceParser
    rw [show (backfillWalkOptions
        (⟨[], some f, Option.none, "", "", 0⟩ : WalkReferencesOptions Nat)).instructor.getD
        DefaultInstructor = f from rfl]
    rw [hfuel, hrun]

/-- C2 witness: with `N = 3` references and an instructor that handles ids
below 2 and stops at 2, the handler runs exactly twice and the walk returns
cleanly. -/
theorem walk_stops_after_k_witness :
    (walkLoop (fun n : Nat => Except.ok n)
        (fun n => if n < 2 then Except.ok WalkInstruction.handle
          else if n = 2 then Except.ok WalkInstruction.stop
          else Except.ok WalkInstruction.handle)
        (fun _ => Except.ok ())
        ((backfillWalkOptions
          (⟨[], some (fun n => if n < 2 then Except.ok WalkInstruction.handle
            else if n = 2 then Except.ok WalkInstruction.stop
            else Except.ok WalkInstruction.handle), Option.none, "", "",
            0⟩ : WalkReferencesOptions Nat)).maxWalkDistance.toNat)
        (refIds 0 3)).hcalls = 2 ∧
    (Adapter.WalkReferences (fun n : Nat => Except.ok n) ⟨refIds 0 3, Option.none⟩
        (fun _ => Except.ok ())
        ⟨[], some (fun n => if n < 2 then Except.ok WalkInstruction.handle
          else if n = 2 then Except.ok WalkInstruction.stop
          else Except.ok WalkInstruction.handle), Option.none, "", "", 0⟩).snd = .ok () :=
  walk_stops_after_k 3 2
    (fun n => if n < 2 then Except.ok WalkInstruction.handle
      else if n = 2 then Except.ok WalkInstruction.stop
      else Except.ok WalkInstruction.handle)
    (fun _ => Except.ok ()) Option.none (by omega) (by omega)
    (fun i hi => by simp [hi])
    (by norm_num)
    (fun i hi => rfl)
